import Mathlib

/-!
Verification of the dmxld lighting-engine core against its specification.

The Python sources are shallowly embedded: floats become exact rationals
(`ℚ`), Python dicts become association lists or functions to `Option`,
and operations that can raise a `TypeError` return `Option` (with `none`
standing for the raised exception).
-/

namespace DMXLD

/-! ## Blend algebra (src/dmxld/blend.py) -/

/-- Blend operation types (`BlendOp` in blend.py). -/
inductive BlendOp
  | set
  | addClamp
  | mul
  deriving DecidableEq, Repr

/-- A value stored in a `FixtureState` or used as a delta operand.
`scalar` models Python `int`/`float`; `tup` models `tuple`/`list`
(including the `Color` and `Raw` tuple subclasses, which `isinstance`
checks in blend.py treat as plain tuples — the `raw` flag records
whether the tuple was wrapped in the `Raw` marker); `other` models any
non-numeric, non-tuple value. -/
inductive Value
  | scalar (q : ℚ)
  | tup (raw : Bool) (l : List ℚ)
  | other
  deriving DecidableEq, Repr

/-- `_clamp` in blend.py (default bounds 0.0 and 1.0). -/
def clamp (v : ℚ) : ℚ := max 0 (min 1 v)

/-- `_apply_scalar_op` in blend.py. -/
def apply_scalar_op (current : ℚ) (op : BlendOp) (value : ℚ) : ℚ :=
  match op with
  | .set => value
  | .addClamp => clamp (current + value)
  | .mul => clamp (current * value)

/-- `float(current)`: converting the current value to a Python float.
Succeeds on numbers, treats `None` (absent) as the 0.0 default taken in
`_apply_op`, and raises `TypeError` (here `none`) on tuples and other
non-numeric values. -/
def currentAsFloat : Option Value → Option ℚ
  | none => some 0
  | some (.scalar q) => some q
  | some (.tup _ _) => none
  | some .other => none

/-- `_apply_tuple_op` in blend.py: component-wise `_apply_scalar_op`
over `zip(current, value)` (`zip` truncates to the shorter tuple).
No `boost` metadata exists on the `Color` of color.py, so the
`boost > 0` branch is never taken and the result is a plain tuple. -/
def apply_tuple_op (current : List ℚ) (op : BlendOp) (value : List ℚ) :
    List ℚ :=
  List.zipWith (fun c v => apply_scalar_op c op v) current value

/-- `_apply_op` in blend.py.  `none` models a raised `TypeError`
(e.g. `float(current)` on a tuple, or `zip(current, value)` on a
scalar current). -/
def apply_op (current : Option Value) (op : BlendOp) (value : Value) :
    Option Value :=
  match value with
  | .scalar v =>
      match currentAsFloat current with
      | none => none
      | some c => some (.scalar (apply_scalar_op c op v))
  | .tup _ l =>
      match current with
      | none => some (.tup false (apply_tuple_op (l.map fun _ => 0) op l))
      | some (.tup _ lc) => some (.tup false (apply_tuple_op lc op l))
      | some (.scalar _) => none
      | some .other => none
  | .other =>
      match op with
      | .set => some .other
      | _ => current

/-- A `FixtureState`: a finite map from attribute keys to values,
modelled as a function into `Option Value`. -/
abbrev FState := String → Option Value

/-- The empty `FixtureState()`. -/
def emptyFS : FState := fun _ => none

/-- Writing one key of a state (`new_state[name] = new_value`). -/
def writeFS (s : FState) (k : String) (v : Value) : FState :=
  fun k' => if k' = k then some v else s k'

/-- A `FixtureDelta`: an insertion-ordered dict from attribute keys to
`(BlendOp, value)` pairs, modelled as an association list (Python dicts
iterate in insertion order and hold each key at most once). -/
abbrev Delta := List (String × BlendOp × Value)

/-- `apply_delta` in blend.py: walk the delta's keys in order, apply the
op against the evolving copy of the state, and write back.  `none`
models an uncaught `TypeError` from `_apply_op`. -/
def apply_delta (s : FState) : Delta → Option FState
  | [] => some s
  | (k, op, v) :: rest =>
      match apply_op (s k) op v with
      | none => none
      | some nv => apply_delta (writeFS s k nv) rest

/-- `merge_deltas` in blend.py: fold `apply_delta` over the list of
deltas, starting from a copy of the initial state. -/
def merge_deltas : List Delta → FState → Option FState
  | [], s => some s
  | d :: rest, s =>
      match apply_delta s d with
      | none => none
      | some s' => merge_deltas rest s'

/-! ## Attribute codecs (src/dmxld/attributes.py) -/

/-- Python `int(...)` on a rational: truncation toward zero. -/
def truncQ (q : ℚ) : ℤ := if 0 ≤ q then ⌊q⌋ else ⌈q⌉

/-- `_to_dmx` in attributes.py: `max(0, min(255, int(v * 255)))`. -/
def to_dmx (v : ℚ) : ℤ := max 0 (min 255 (truncQ (v * 255)))

/-- `_to_dmx_16bit` in attributes.py:
`val = max(0, min(65535, int(v * 65535)))`, returning
`(val >> 8, val & 0xFF)`; on nonnegative integers the shift and mask
are division and remainder by 256. -/
def to_dmx_16bit (v : ℚ) : ℤ × ℤ :=
  let val := max 0 (min 65535 (truncQ (v * 65535)))
  (val / 256, val % 256)

/-- `DimmerAttr.encode` (with its `fine` flag). -/
def dimmer_encode (fine : Bool) (v : ℚ) : List ℤ :=
  if fine then [(to_dmx_16bit v).1, (to_dmx_16bit v).2] else [to_dmx v]

/-- `StrobeAttr.encode`. -/
def strobe_encode (v : ℚ) : List ℤ := [to_dmx v]

/-- `PanAttr.encode` (with its `fine` flag). -/
def pan_encode (fine : Bool) (v : ℚ) : List ℤ :=
  if fine then [(to_dmx_16bit v).1, (to_dmx_16bit v).2] else [to_dmx v]

/-- `TiltAttr.encode` (with its `fine` flag). -/
def tilt_encode (fine : Bool) (v : ℚ) : List ℤ :=
  if fine then [(to_dmx_16bit v).1, (to_dmx_16bit v).2] else [to_dmx v]

/-- `GoboAttr.encode`. -/
def gobo_encode (v : ℚ) : List ℤ := [to_dmx v]

/-- `RGBAttr.encode`: indexes `value[0]`, `value[1]`, `value[2]`, so it
raises `IndexError` (`none`) on shorter tuples and ignores extras. -/
def rgb_encode : List ℚ → Option (List ℤ)
  | a :: b :: c :: _ => some [to_dmx a, to_dmx b, to_dmx c]
  | _ => none

/-- `RGBWAttr.encode`: `[_to_dmx(v) for v in value[:4]]`. -/
def rgbw_encode (l : List ℚ) : List ℤ := (l.take 4).map to_dmx

/-- `SkipAttr.encode`: `[0] * count`. -/
def skip_encode (count : ℕ) : List ℤ := List.replicate count 0

/-! ## Color conversion (src/dmxld/color.py) -/

/-- The three color-conversion strategies of color.py. -/
inductive ColorStrategy
  | balanced
  | preserveRgb
  | maxWhite
  deriving DecidableEq, Repr

/-- `rgb_to_rgbw` in color.py, with the strategy resolved (a `None`
argument reads the process-wide default, `"balanced"` unless changed). -/
def rgb_to_rgbw (r g b : ℚ) (strategy : ColorStrategy) : ℚ × ℚ × ℚ × ℚ :=
  match strategy with
  | .preserveRgb => (r, g, b, 0)
  | .maxWhite =>
      let w := min r (min g b)
      if 0 < w then
        let remaining := 1 - w
        if 0 < remaining then
          (if w < r then (r - w) / (1 - w) * remaining else 0,
           if w < g then (g - w) / (1 - w) * remaining else 0,
           if w < b then (b - w) / (1 - w) * remaining else 0,
           w)
        else (r, g, b, 0)
      else (r, g, b, 0)
  | .balanced =>
      let w := min r (min g b)
      (r - w, g - w, b - w, w)

/-- `rgbw_to_rgb` in color.py: `min(1, c + w)` per channel. -/
def rgbw_to_rgb (r g b w : ℚ) : ℚ × ℚ × ℚ :=
  (min 1 (r + w), min 1 (g + w), min 1 (b + w))

/-- `hsv_to_rgb` in color.py (Rainbow._hsv_to_rgb in effects.py is a
textually identical copy).  Python's `int(h * 6.0)` truncates toward
zero and `i % 6` is a nonnegative remainder; the final return catches
the remainder 5. -/
def hsv_to_rgb (h s v : ℚ) : ℚ × ℚ × ℚ :=
  if s = 0 then (v, v, v)
  else
    let i := truncQ (h * 6)
    let f := h * 6 - i
    let p := v * (1 - s)
    let q := v * (1 - s * f)
    let t := v * (1 - s * (1 - f))
    match (i % 6).toNat with
    | 0 => (v, t, p)
    | 1 => (q, v, p)
    | 2 => (p, v, t)
    | 3 => (p, q, v)
    | 4 => (t, p, v)
    | _ => (v, p, q)

/-- `RGBWAttr.convert` in attributes.py: a tuple with 4 or more
channels is passed through as its first four channels; otherwise the
RGB channels (missing ones default to 0) are converted with
`rgb_to_rgbw`. -/
def rgbw_convert (strategy : ColorStrategy) (color : List ℚ) : List ℚ :=
  if 4 ≤ color.length then color.take 4
  else
    let p := rgb_to_rgbw (color.getD 0 0) (color.getD 1 0) (color.getD 2 0)
      strategy
    [p.1, p.2.1, p.2.2.1, p.2.2.2]

/-! ## Rig (src/dmxld/model.py) -/

/-- The addressing data of a `Fixture` that `Rig._check_overlap` reads:
universe, start address, and the fixture type's `channel_count`. -/
structure Fixture where
  univ : ℤ
  address : ℤ
  channelCount : ℕ
  deriving DecidableEq, Repr

/-- `Rig._check_overlap` in model.py: `True` iff some existing fixture
in the same universe satisfies
`new_start <= existing_end and existing_start <= new_end`
(in the source this raises `ValueError`). -/
def check_overlap (fixtures : List Fixture) (f : Fixture) : Bool :=
  fixtures.any fun g =>
    decide (g.univ = f.univ) &&
    decide (f.address ≤ g.address + (g.channelCount : ℤ) - 1) &&
    decide (g.address ≤ f.address + (f.channelCount : ℤ) - 1)

/-- `Rig.add` in model.py: check overlap first (raising leaves the
fixture list untouched), then append. -/
def rig_add (fixtures : List Fixture) (f : Fixture) :
    Option (List Fixture) :=
  if check_overlap fixtures f then none else some (fixtures ++ [f])

/-- `len()`/indexing on a state value: tuples (Raw-wrapped or not)
expose their channels; scalars and other values raise `TypeError`
(`none`). -/
def valueAsTuple : Value → Option (Bool × List ℚ)
  | .tup r l => some (r, l)
  | _ => none

/-- The per-segment value resolution of `FixtureType.encode` in
model.py (segmented color branch): the `raw_<name>_<seg>` key wins and
is used verbatim; else `color_<seg>`, else the unified `color`, both
passed through `attr.convert`; else the attribute default.  The code
never inspects the `Raw` marker: a Raw-wrapped tuple found under
`color_<seg>` or `color` is converted exactly like a plain tuple. -/
def seg_resolve (convert : List ℚ → List ℚ) (rawName : Option String)
    (defaultValue : List ℚ) (state : FState) (seg : ℕ) :
    Option (List ℚ) :=
  let rawVal := rawName.bind fun rn => state (rn ++ "_" ++ toString seg)
  match rawVal with
  | some v => (valueAsTuple v).map Prod.snd
  | none =>
      match state ("color_" ++ toString seg) with
      | some v => (valueAsTuple v).map fun p => convert p.2
      | none =>
          match state "color" with
          | some v => (valueAsTuple v).map fun p => convert p.2
          | none => some defaultValue

/-- The byte-writing loop of the segmented branch of
`FixtureType.encode`: for each segment, resolve the value, encode it,
keep the first `base_channels` bytes and key them by channel offset
`seg * base_channels + i`. -/
def encode_segments (convert : List ℚ → List ℚ) (rawName : Option String)
    (defaultValue : List ℚ) (encodeAttr : List ℚ → List ℤ)
    (baseChannels : ℕ) (state : FState) :
    List ℕ → Option (List (ℕ × ℤ))
  | [] => some []
  | seg :: rest =>
      match seg_resolve convert rawName defaultValue state seg with
      | none => none
      | some value =>
          match encode_segments convert rawName defaultValue encodeAttr
              baseChannels state rest with
          | none => none
          | some tail =>
              some ((((encodeAttr value).take baseChannels).enum.map
                fun p => (seg * baseChannels + p.1, p.2)) ++ tail)

/-- The segmented color branch of `FixtureType.encode` for a single
color attribute with `segments > 1`, producing the offset-keyed
channel bytes. -/
def encode_segmented (convert : List ℚ → List ℚ) (rawName : Option String)
    (defaultValue : List ℚ) (encodeAttr : List ℚ → List ℤ)
    (segments baseChannels : ℕ) (state : FState) :
    Option (List (ℕ × ℤ)) :=
  encode_segments convert rawName defaultValue encodeAttr baseChannels
    state (List.range segments)

/-! ## Effects (src/dmxld/effects.py) -/

/-- `Rainbow.render_params` in effects.py: takes only `(t, f, i)` — no
segment parameter — computes `hue = (t·speed + i·0.1) % 1.0`, and
returns `FixtureState(dimmer=1.0, rgb=hsv_to_rgb(hue, saturation, 1))`
(keys `"dimmer"` and `"rgb"`; no `"color"` key). -/
def rainbow_render_params (speed saturation : ℚ) (t : ℚ) (i : ℕ) :
    FState :=
  let hue := Int.fract (t * speed + (i : ℚ) * (1/10))
  let c := hsv_to_rgb hue saturation 1
  writeFS (writeFS emptyFS "dimmer" (.scalar 1)) "rgb"
    (.tup false [c.1, c.2.1, c.2.2])

/-! ## Engine playback control (src/dmxld/engine.py) -/

/-- The engine control state observable by `stop()`/`wait()`:
`running` is `_running`, `timerPending` records whether a
`threading.Timer` for `_schedule_frame` is armed, `transportUp` whether
the transport has been started and not stopped, `doneSet` whether
`_done_event` has been set (`wait()` returns iff it is set). -/
structure EngineState where
  running : Bool
  timerPending : Bool
  transportUp : Bool
  doneSet : Bool
  deriving DecidableEq, Repr

/-- `DMXEngine._finish_playback`: clear `_running`, stop and drop the
transport, set `_done_event`. -/
def finish_playback (s : EngineState) : EngineState :=
  { s with running := false, transportUp := false, doneSet := true }

/-- `DMXEngine.stop`: clear `_running` and cancel the pending timer.
Nothing else: the transport and `_done_event` are only touched by
`_finish_playback`, which is called solely from `_schedule_frame`. -/
def engine_stop (s : EngineState) : EngineState :=
  { s with running := false, timerPending := false }

/-- `DMXEngine._schedule_frame`, entered when the armed timer fires
(the timer is consumed before the body runs): finish when `_running`
is cleared or the clip duration has elapsed (`expired`), else render,
send, and arm the next timer. -/
def schedule_frame (expired : Bool) (s : EngineState) : EngineState :=
  if !s.running then finish_playback s
  else if expired then finish_playback s
  else { s with timerPending := true }

/-- The state right after `play()`: transport created and started,
`_running` set, `_done_event` fresh (unset), and the first
`_schedule_frame` call has armed a timer. -/
def playingState : EngineState :=
  { running := true, timerPending := true, transportUp := true,
    doneSet := false }

/-- Interleaved events on the engine state: an outside caller invoking
`stop()`, or the armed timer firing and running `_schedule_frame`
(possible only while a timer is pending). -/
inductive EngineStep : EngineState → EngineState → Prop
  | stop (s : EngineState) : EngineStep s (engine_stop s)
  | fire (s : EngineState) (expired : Bool) (h : s.timerPending = true) :
      EngineStep s (schedule_frame expired { s with timerPending := false })

/-! ## Timeline (src/timeline/clip.py) -/

/-- The loop body of `Timeline.duration`: starting from the running
`max_end` (initially `0.0`), return `None` as soon as a child's
duration is `None`, else accumulate `max(max_end, start + dur)`.
Each entry is modelled by the pair the property reads:
`(start_time, child.duration)`. -/
def durationFold (maxEnd : ℚ) : List (ℚ × Option ℚ) → Option ℚ
  | [] => some maxEnd
  | (_, none) :: _ => none
  | (start, some d) :: rest => durationFold (max maxEnd (start + d)) rest

/-- `Timeline.duration` in clip.py: `0.0` for an empty timeline, else
the fold starting at `max_end = 0.0`. -/
def timeline_duration (events : List (ℚ × Option ℚ)) : Option ℚ :=
  match events with
  | [] => some 0
  | _ => durationFold 0 events

/-- The C6 failing input: a state giving segment 0 a Raw-wrapped RGB
triple `Raw(1,1,1)` under `"color_0"` and segment 1 a plain RGB triple
`(1,0,0)` under `"color_1"`. -/
def c6_state : FState :=
  writeFS (writeFS emptyFS "color_0" (.tup true [1, 1, 1])) "color_1"
    (.tup false [1, 0, 0])

/-- `clamp` stays above 0. -/
theorem clamp_nonneg (v : ℚ) : 0 ≤ clamp v := le_max_left _ _

/-- `clamp` stays below 1. -/
theorem clamp_le_one (v : ℚ) : clamp v ≤ 1 :=
  max_le zero_le_one (min_le_left _ _)

/-- Byte value of the normalized 0. -/
theorem to_dmx_zero : to_dmx 0 = 0 := by
  norm_num [to_dmx, truncQ, min_def, max_def]

/-- Byte value of the normalized 1. -/
theorem to_dmx_one : to_dmx 1 = 255 := by
  norm_num [to_dmx, truncQ, min_def, max_def]

/-- Keys a delta does not touch keep their value through `apply_delta`. -/
theorem apply_delta_not_mem (d : Delta) (s : FState) (k : String)
    (h : k ∉ d.map Prod.fst) (s' : FState)
    (hs : apply_delta s d = some s') : s' k = s k := by
  induction d generalizing s with
  | nil =>
      simp only [apply_delta] at hs
      cases hs; rfl
  | cons e rest ih =>
      obtain ⟨k', op', v'⟩ := e
      simp only [List.map_cons, List.mem_cons, not_or] at h
      simp only [apply_delta] at hs
      cases hop : apply_op (s k') op' v' with
      | none => rw [hop] at hs; cases hs
      | some nv =>
          rw [hop] at hs
          have := ih (writeFS s k' nv) h.2 hs
          rw [this, writeFS, if_neg h.1]

/-- `durationFold` returns `None` as soon as any child is unbounded. -/
theorem durationFold_none (l : List (ℚ × Option ℚ)) (acc : ℚ)
    (h : ∃ e ∈ l, e.2 = none) : durationFold acc l = none := by
  induction l generalizing acc with
  | nil => simp at h
  | cons e rest ih =>
      obtain ⟨start, dd⟩ := e
      cases dd with
      | none => rfl
      | some d =>
          rcases h with ⟨e', he', hd⟩
          rcases List.mem_cons.mp he' with rfl | hmem
          · cases hd
          · exact ih (max acc (start + d)) ⟨e', hmem, hd⟩

/-- When every child is bounded, `durationFold` returns the maximum of
the accumulator and the entry end times, characterized as the least
upper bound that is attained or equals the accumulator. -/
theorem durationFold_finite (l : List (ℚ × Option ℚ)) (acc : ℚ)
    (h : ∀ e ∈ l, e.2 ≠ none) :
    ∃ m, durationFold acc l = some m ∧ acc ≤ m
      ∧ (∀ e ∈ l, ∀ d, e.2 = some d → e.1 + d ≤ m)
      ∧ (m = acc ∨ ∃ e ∈ l, ∃ d, e.2 = some d ∧ m = e.1 + d) := by
  induction l generalizing acc with
  | nil => exact ⟨acc, rfl, le_refl _, by simp, Or.inl rfl⟩
  | cons e rest ih =>
      obtain ⟨start, dd⟩ := e
      cases dd with
      | none => exact absurd rfl (h (start, none) (List.mem_cons_self _ _))
      | some d =>
          obtain ⟨m, hm, hacc, hub, hatt⟩ :=
            ih (max acc (start + d)) (fun e he => h e (List.mem_cons_of_mem _ he))
          refine ⟨m, hm, le_trans (le_max_left _ _) hacc, ?_, ?_⟩
          · intro e he d' hd'
            rcases List.mem_cons.mp he with rfl | hmem
            · cases hd'
              exact le_trans (le_max_right acc _) hacc
            · exact hub e hmem d' hd'
          · rcases hatt with rfl | ⟨e, he, d', hd', hm'⟩
            · rcases max_cases acc (start + d) with ⟨hmx, _⟩ | ⟨hmx, _⟩
              · exact Or.inl hmx
              · exact Or.inr ⟨(start, some d), List.mem_cons_self _ _, d,
                  rfl, hmx⟩
            · exact Or.inr ⟨e, List.mem_cons_of_mem _ he, d', hd', hm'⟩

end DMXLD

/-- C1: the claim predicts a merged state for *every* initial state, but
when the initial state holds a tuple at the key, `_apply_op` evaluates
`float(current)` on a tuple and raises `TypeError`: `merge_deltas`
produces no state at all (here: `none`), even though the claim's value
`clamp(clamp(a+b)·c)` is well defined (`= 1/2` at `a=b=c=1/2`). -/
theorem c1_counterexample :
    DMXLD.merge_deltas
      [[("color", (.set, .scalar (1/2)))],
       [("color", (.addClamp, .scalar (1/2)))],
       [("color", (.mul, .scalar (1/2)))]]
      (DMXLD.writeFS DMXLD.emptyFS "color" (.tup false [0, 0])) = none
    ∧ DMXLD.clamp (DMXLD.clamp (1/2 + 1/2) * (1/2)) = 1/2 := by
  constructor
  · rfl
  · simp [DMXLD.clamp]
    norm_num

/-- C1 (amended): when the initial state's value at the key is absent or
a scalar, merging `[(SET,a), (ADD_CLAMP,b), (MUL,c)]` at that key yields
a state whose value there is `clamp(clamp(a+b)·c)`. -/
theorem c1_theorem (a b c : ℚ) (s : DMXLD.FState) (k : String)
    (h : s k = none ∨ ∃ q, s k = some (.scalar q)) :
    ∃ s', DMXLD.merge_deltas
        [[(k, (.set, .scalar a))],
         [(k, (.addClamp, .scalar b))],
         [(k, (.mul, .scalar c))]] s = some s'
      ∧ s' k = some (.scalar (DMXLD.clamp (DMXLD.clamp (a + b) * c))) := by
  obtain ⟨c0, hc⟩ : ∃ c0, DMXLD.currentAsFloat (s k) = some c0 := by
    rcases h with h | ⟨q, h⟩ <;> rw [h] <;> exact ⟨_, rfl⟩
  have h1 : DMXLD.apply_delta s [(k, (.set, .scalar a))] =
      some (DMXLD.writeFS s k (.scalar a)) := by
    simp only [DMXLD.apply_delta, DMXLD.apply_op, hc, DMXLD.apply_scalar_op]
  have hk1 : DMXLD.writeFS s k (.scalar a) k = some (.scalar a) := by
    rw [DMXLD.writeFS, if_pos rfl]
  have h2 : DMXLD.apply_delta (DMXLD.writeFS s k (.scalar a))
        [(k, (.addClamp, .scalar b))] =
      some (DMXLD.writeFS (DMXLD.writeFS s k (.scalar a)) k
        (.scalar (DMXLD.clamp (a + b)))) := by
    simp only [DMXLD.apply_delta, DMXLD.apply_op, hk1, DMXLD.currentAsFloat,
      DMXLD.apply_scalar_op]
  have hk2 : DMXLD.writeFS (DMXLD.writeFS s k (.scalar a)) k
      (.scalar (DMXLD.clamp (a + b))) k =
        some (.scalar (DMXLD.clamp (a + b))) := by
    rw [DMXLD.writeFS, if_pos rfl]
  have h3 : DMXLD.apply_delta (DMXLD.writeFS (DMXLD.writeFS s k (.scalar a))
        k (.scalar (DMXLD.clamp (a + b)))) [(k, (.mul, .scalar c))] =
      some (DMXLD.writeFS (DMXLD.writeFS (DMXLD.writeFS s k (.scalar a)) k
        (.scalar (DMXLD.clamp (a + b)))) k
        (.scalar (DMXLD.clamp (DMXLD.clamp (a + b) * c)))) := by
    simp only [DMXLD.apply_delta, DMXLD.apply_op, hk2, DMXLD.currentAsFloat,
      DMXLD.apply_scalar_op]
  refine ⟨DMXLD.writeFS (DMXLD.writeFS (DMXLD.writeFS s k (.scalar a)) k
      (.scalar (DMXLD.clamp (a + b)))) k
      (.scalar (DMXLD.clamp (DMXLD.clamp (a + b) * c))), ?_, ?_⟩
  · simp only [DMXLD.merge_deltas, h1, h2, h3]
  · rw [DMXLD.writeFS, if_pos rfl]

/-- C1 witness: at `a = b = c = 1/2` on the empty state the merged value
is `clamp(clamp(1)·1/2)`. -/
theorem c1_witness :
    (DMXLD.emptyFS "dimmer" = none
      ∨ ∃ q, DMXLD.emptyFS "dimmer" = some (.scalar q))
    ∧ ∃ s', DMXLD.merge_deltas
        [[("dimmer", (.set, .scalar (1/2)))],
         [("dimmer", (.addClamp, .scalar (1/2)))],
         [("dimmer", (.mul, .scalar (1/2)))]] DMXLD.emptyFS = some s'
      ∧ s' "dimmer" =
          some (.scalar (DMXLD.clamp (DMXLD.clamp (1/2 + 1/2) * (1/2)))) :=
  ⟨Or.inl rfl,
   c1_theorem (1/2) (1/2) (1/2) DMXLD.emptyFS "dimmer" (Or.inl rfl)⟩

/-- C2: the claim fails for `SET`, which writes its operand verbatim
without clamping: `apply_delta` on `(SET, 3/2)` stores `3/2 ∉ [0,1]`. -/
theorem c2_counterexample :
    ∃ s', DMXLD.apply_delta DMXLD.emptyFS
        [("dimmer", (.set, .scalar (3/2)))] = some s'
      ∧ s' "dimmer" = some (.scalar (3/2)) ∧ ¬ ((3:ℚ)/2 ≤ 1) := by
  refine ⟨_, rfl, ?_, by norm_num⟩
  simp [DMXLD.writeFS, DMXLD.apply_scalar_op]

/-- C2 (amended): every scalar value written through `ADD_CLAMP` or
`MUL` lies in `[0,1]`; `SET` instead writes its operand verbatim. -/
theorem c2_theorem (s : DMXLD.FState) (d : DMXLD.Delta) (k : String)
    (op : DMXLD.BlendOp) (v : ℚ)
    (hnodup : (d.map Prod.fst).Nodup)
    (hmem : (k, op, .scalar v) ∈ d)
    (hop : op = .addClamp ∨ op = .mul)
    (s' : DMXLD.FState) (hs : DMXLD.apply_delta s d = some s') :
    ∃ q, s' k = some (.scalar q) ∧ 0 ≤ q ∧ q ≤ 1 := by
  induction d generalizing s with
  | nil => cases hmem
  | cons e rest ih =>
      obtain ⟨k', op', v'⟩ := e
      simp only [DMXLD.apply_delta] at hs
      cases hap : DMXLD.apply_op (s k') op' v' with
      | none => rw [hap] at hs; cases hs
      | some nv =>
          rw [hap] at hs
          rcases List.mem_cons.mp hmem with hhead | htail
          · simp only [Prod.mk.injEq] at hhead
            obtain ⟨hk, hope, hve⟩ := hhead
            subst hk; subst hope; subst hve
            simp only [DMXLD.apply_op] at hap
            cases hc : DMXLD.currentAsFloat (s k) with
            | none => rw [hc] at hap; cases hap
            | some c0 =>
                rw [hc] at hap
                have hnv : nv = .scalar (DMXLD.apply_scalar_op c0 op v) := by
                  cases hap; rfl
                have hk' : k ∉ rest.map Prod.fst := by
                  simpa using (List.nodup_cons.mp hnodup).1
                have hfix := DMXLD.apply_delta_not_mem rest
                  (DMXLD.writeFS s k nv) k hk' s' hs
                rw [hfix, DMXLD.writeFS, if_pos rfl, hnv]
                refine ⟨_, rfl, ?_, ?_⟩
                · rcases hop with h | h <;> subst h <;>
                    exact DMXLD.clamp_nonneg _
                · rcases hop with h | h <;> subst h <;>
                    exact DMXLD.clamp_le_one _
          · exact ih (DMXLD.writeFS s k' nv)
              ((List.nodup_cons.mp hnodup).2) htail hs

/-- C2 witness: `ADD_CLAMP 2` on an empty state writes a value in
`[0,1]` (namely `clamp(0+2) = 1`). -/
theorem c2_witness :
    ∃ q, DMXLD.writeFS DMXLD.emptyFS "dimmer"
        (.scalar (DMXLD.apply_scalar_op 0 .addClamp 2)) "dimmer" =
          some (.scalar q) ∧ 0 ≤ q ∧ q ≤ 1 :=
  c2_theorem DMXLD.emptyFS [("dimmer", (.addClamp, .scalar 2))] "dimmer"
    .addClamp 2 (by simp) (by simp) (Or.inl rfl) _ rfl

/-- C3: the claim says the 8-bit byte is `round(v·255)` clamped, but the
code truncates (`int(v * 255)`): at `v = 1/2` the code emits 127 while
the claim demands the clamped `round(127.5) = 128`. -/
theorem c3_counterexample :
    DMXLD.dimmer_encode false (1/2) = [127]
    ∧ max 0 (min 255 (round ((1/2 : ℚ) * 255))) = 128
    ∧ (127 : ℤ) ≠ 128 := by
  have ht : DMXLD.truncQ ((1/2 : ℚ) * 255) = 127 := by
    rw [DMXLD.truncQ, if_pos (by norm_num : (0:ℚ) ≤ (1/2 : ℚ) * 255)]
    norm_num
  have hr : round ((1/2 : ℚ) * 255) = 128 := by norm_num [round_eq]
  refine ⟨?_, ?_, by decide⟩
  · simp only [DMXLD.dimmer_encode, DMXLD.to_dmx, ht, if_false,
      Bool.false_eq_true]
    decide
  · rw [hr]; decide

/-- C3 (amended): every 8-bit attribute encode (dimmer, strobe, pan,
tilt, gobo, and each RGB color component) emits the byte
`int(v·255)` (truncation toward zero) clamped to `[0,255]`, and the
16-bit encode emits `int(v·65535)` clamped to `[0,65535]` split into a
coarse high byte and fine low byte, both in `[0,255]`, with
`coarse·256 + fine` reconstructing the clamped value. -/
theorem c3_theorem (v : ℚ) :
    DMXLD.dimmer_encode false v = [DMXLD.to_dmx v]
    ∧ DMXLD.strobe_encode v = [DMXLD.to_dmx v]
    ∧ DMXLD.pan_encode false v = [DMXLD.to_dmx v]
    ∧ DMXLD.tilt_encode false v = [DMXLD.to_dmx v]
    ∧ DMXLD.gobo_encode v = [DMXLD.to_dmx v]
    ∧ (∀ r g b rest, DMXLD.rgb_encode (r :: g :: b :: rest) =
        some [DMXLD.to_dmx r, DMXLD.to_dmx g, DMXLD.to_dmx b])
    ∧ DMXLD.to_dmx v = max 0 (min 255 (DMXLD.truncQ (v * 255)))
    ∧ 0 ≤ DMXLD.to_dmx v ∧ DMXLD.to_dmx v ≤ 255
    ∧ DMXLD.dimmer_encode true v =
        [(DMXLD.to_dmx_16bit v).1, (DMXLD.to_dmx_16bit v).2]
    ∧ (DMXLD.to_dmx_16bit v).1 * 256 + (DMXLD.to_dmx_16bit v).2 =
        max 0 (min 65535 (DMXLD.truncQ (v * 65535)))
    ∧ 0 ≤ (DMXLD.to_dmx_16bit v).1 ∧ (DMXLD.to_dmx_16bit v).1 ≤ 255
    ∧ 0 ≤ (DMXLD.to_dmx_16bit v).2 ∧ (DMXLD.to_dmx_16bit v).2 ≤ 255 := by
  have hval0 : 0 ≤ max 0 (min 65535 (DMXLD.truncQ (v * 65535))) :=
    le_max_left _ _
  have hval1 : max 0 (min 65535 (DMXLD.truncQ (v * 65535))) ≤ 65535 :=
    max_le (by norm_num) (min_le_left _ _)
  refine ⟨rfl, rfl, rfl, rfl, rfl, fun r g b rest => rfl, rfl,
    le_max_left _ _, max_le (by norm_num) (min_le_left _ _), rfl,
    ?_, ?_, ?_, ?_, ?_⟩
  · show max 0 (min 65535 (DMXLD.truncQ (v * 65535))) / 256 * 256 +
        max 0 (min 65535 (DMXLD.truncQ (v * 65535))) % 256 = _
    rw [mul_comm]
    exact Int.ediv_add_emod _ 256
  · exact Int.ediv_nonneg hval0 (by norm_num)
  · calc max 0 (min 65535 (DMXLD.truncQ (v * 65535))) / 256
        ≤ 65535 / 256 := Int.ediv_le_ediv (by norm_num) hval1
      _ = 255 := by decide
  · exact Int.emod_nonneg _ (by norm_num)
  · show max 0 (min 65535 (DMXLD.truncQ (v * 65535))) % 256 ≤ 255
    have := Int.emod_lt_of_pos
      (max 0 (min 65535 (DMXLD.truncQ (v * 65535)))) (b := 256) (by norm_num)
    omega

/-- C8: with the `"balanced"` strategy, `rgbw_to_rgb` inverts
`rgb_to_rgbw` exactly on `[0,1]` inputs satisfying
`min(r,g,b) ≤ 1 − max(r,g,b)`. -/
theorem c8_theorem (r g b : ℚ) (hr0 : 0 ≤ r) (hr1 : r ≤ 1)
    (hg0 : 0 ≤ g) (hg1 : g ≤ 1) (hb0 : 0 ≤ b) (hb1 : b ≤ 1)
    (hreg : min r (min g b) ≤ 1 - max r (max g b)) :
    DMXLD.rgbw_to_rgb
      (DMXLD.rgb_to_rgbw r g b .balanced).1
      (DMXLD.rgb_to_rgbw r g b .balanced).2.1
      (DMXLD.rgb_to_rgbw r g b .balanced).2.2.1
      (DMXLD.rgb_to_rgbw r g b .balanced).2.2.2 = (r, g, b) := by
  simp only [DMXLD.rgb_to_rgbw, DMXLD.rgbw_to_rgb]
  have e1 : r - min r (min g b) + min r (min g b) = r := by ring
  have e2 : g - min r (min g b) + min r (min g b) = g := by ring
  have e3 : b - min r (min g b) + min r (min g b) = b := by ring
  rw [e1, e2, e3, min_eq_right hr1, min_eq_right hg1, min_eq_right hb1]

/-- C8 witness: the round trip at `(1/4, 1/2, 1/4)`, which satisfies
the preservation-regime hypothesis `1/4 ≤ 1 − 1/2`. -/
theorem c8_witness :
    min (1/4 : ℚ) (min (1/2) (1/4)) ≤ 1 - max (1/4) (max (1/2) (1/4))
    ∧ DMXLD.rgbw_to_rgb
        (DMXLD.rgb_to_rgbw (1/4) (1/2) (1/4) .balanced).1
        (DMXLD.rgb_to_rgbw (1/4) (1/2) (1/4) .balanced).2.1
        (DMXLD.rgb_to_rgbw (1/4) (1/2) (1/4) .balanced).2.2.1
        (DMXLD.rgb_to_rgbw (1/4) (1/2) (1/4) .balanced).2.2.2 =
          (1/4, 1/2, 1/4) :=
  ⟨by norm_num,
   c8_theorem (1/4) (1/2) (1/4) (by norm_num) (by norm_num) (by norm_num)
     (by norm_num) (by norm_num) (by norm_num) (by norm_num)⟩

/-- C10: under exact rational arithmetic the `"max_white"` strategy
coincides with `"balanced"` (both return
`(r−w, g−w, b−w, w)` with `w = min(r,g,b)`) whenever `min(r,g,b) < 1`,
and at `r = g = b = 1` it returns `(1,1,1,0)` with white 0. -/
theorem c10_theorem :
    (∀ r g b : ℚ, 0 ≤ r → r ≤ 1 → 0 ≤ g → g ≤ 1 → 0 ≤ b → b ≤ 1 →
      min r (min g b) < 1 →
      DMXLD.rgb_to_rgbw r g b .maxWhite = DMXLD.rgb_to_rgbw r g b .balanced
      ∧ DMXLD.rgb_to_rgbw r g b .balanced =
          (r - min r (min g b), g - min r (min g b), b - min r (min g b),
           min r (min g b)))
    ∧ DMXLD.rgb_to_rgbw 1 1 1 .maxWhite = (1, 1, 1, 0) := by
  constructor
  · intro r g b hr0 _ hg0 _ hb0 _ hw1
    refine ⟨?_, rfl⟩
    simp only [DMXLD.rgb_to_rgbw]
    by_cases hw : 0 < min r (min g b)
    · rw [if_pos hw, if_pos (by linarith : (0:ℚ) < 1 - min r (min g b))]
      have hne : (1 : ℚ) - min r (min g b) ≠ 0 := by linarith
      have comp : ∀ x : ℚ, min r (min g b) ≤ x →
          (if min r (min g b) < x then
            (x - min r (min g b)) / (1 - min r (min g b)) *
              (1 - min r (min g b))
          else 0) = x - min r (min g b) := by
        intro x hx
        by_cases hlt : min r (min g b) < x
        · rw [if_pos hlt, div_mul_cancel₀ _ hne]
        · rw [if_neg hlt]
          have : x = min r (min g b) := le_antisymm (not_lt.mp hlt) hx
          rw [this, sub_self]
      rw [comp r (min_le_left _ _),
        comp g (le_trans (min_le_right _ _) (min_le_left _ _)),
        comp b (le_trans (min_le_right _ _) (min_le_right _ _))]
    · have h0 : (0:ℚ) ≤ min r (min g b) := le_min hr0 (le_min hg0 hb0)
      have hz : min r (min g b) = 0 := le_antisymm (not_lt.mp hw) h0
      rw [if_neg hw, hz]
      norm_num
  · simp [DMXLD.rgb_to_rgbw]

/-- C10 witness: at `(1/2, 1/4, 3/4)` both strategies give
`(1/4, 0, 1/2, 1/4)`. -/
theorem c10_witness :
    min (1/2 : ℚ) (min (1/4) (3/4)) < 1
    ∧ DMXLD.rgb_to_rgbw (1/2) (1/4) (3/4) .maxWhite =
        DMXLD.rgb_to_rgbw (1/2) (1/4) (3/4) .balanced
    ∧ DMXLD.rgb_to_rgbw (1/2) (1/4) (3/4) .balanced =
        (1/2 - min (1/2 : ℚ) (min (1/4) (3/4)),
         1/4 - min (1/2 : ℚ) (min (1/4) (3/4)),
         3/4 - min (1/2 : ℚ) (min (1/4) (3/4)),
         min (1/2 : ℚ) (min (1/4) (3/4))) :=
  ⟨by norm_num,
   (c10_theorem.1 (1/2) (1/4) (3/4) (by norm_num) (by norm_num)
     (by norm_num) (by norm_num) (by norm_num) (by norm_num)
     (by norm_num)).1,
   (c10_theorem.1 (1/2) (1/4) (3/4) (by norm_num) (by norm_num)
     (by norm_num) (by norm_num) (by norm_num) (by norm_num)
     (by norm_num)).2⟩

/-- C4: `Rig.add` fails exactly when an existing fixture of the same
universe shares a channel with the new fixture's range (fixtures in
other universes and channel-adjacent fixtures pass), and on success the
list is the old list with the fixture appended (on failure the check
raises before any mutation, so the list is unchanged).  Stated for
fixtures occupying at least one channel. -/
theorem c4_theorem (rig : List DMXLD.Fixture) (f : DMXLD.Fixture)
    (hf : 1 ≤ f.channelCount) (hrig : ∀ g ∈ rig, 1 ≤ g.channelCount) :
    (DMXLD.rig_add rig f = none ↔
      ∃ g ∈ rig, g.univ = f.univ ∧
        ∃ c : ℤ, f.address ≤ c ∧ c ≤ f.address + f.channelCount - 1 ∧
          g.address ≤ c ∧ c ≤ g.address + g.channelCount - 1)
    ∧ ∀ r', DMXLD.rig_add rig f = some r' → r' = rig ++ [f] := by
  have hiff : DMXLD.rig_add rig f = none ↔
      DMXLD.check_overlap rig f = true := by
    rw [DMXLD.rig_add]
    by_cases hchk : DMXLD.check_overlap rig f = true
    · simp [hchk]
    · simp [hchk]
  constructor
  · rw [hiff, DMXLD.check_overlap, List.any_eq_true]
    constructor
    · rintro ⟨g, hg, hcond⟩
      simp only [Bool.and_eq_true, decide_eq_true_eq] at hcond
      obtain ⟨⟨h1, h2⟩, h3⟩ := hcond
      have hgc := hrig g hg
      exact ⟨g, hg, h1, max f.address g.address,
        by omega, by omega, by omega, by omega⟩
    · rintro ⟨g, hg, h1, c, hc1, hc2, hc3, hc4⟩
      refine ⟨g, hg, ?_⟩
      simp only [Bool.and_eq_true, decide_eq_true_eq]
      exact ⟨⟨h1, by omega⟩, by omega⟩
  · intro r' h
    rw [DMXLD.rig_add] at h
    by_cases hchk : DMXLD.check_overlap rig f = true
    · rw [if_pos hchk] at h; cases h
    · rw [if_neg hchk] at h
      exact (Option.some_inj.mp h).symm

/-- C4 witness: a 4-channel fixture at address 5 is adjacent to a
4-channel fixture at address 1 (channels 1–4 vs 5–8) in universe 1 and
is accepted. -/
theorem c4_witness :
    1 ≤ (DMXLD.Fixture.mk 1 5 4).channelCount
    ∧ (∀ g ∈ [DMXLD.Fixture.mk 1 1 4], 1 ≤ g.channelCount)
    ∧ ((DMXLD.rig_add [DMXLD.Fixture.mk 1 1 4] (DMXLD.Fixture.mk 1 5 4) =
          none ↔
        ∃ g ∈ [DMXLD.Fixture.mk 1 1 4],
          g.univ = (DMXLD.Fixture.mk 1 5 4).univ ∧
          ∃ c : ℤ, (DMXLD.Fixture.mk 1 5 4).address ≤ c ∧
            c ≤ (DMXLD.Fixture.mk 1 5 4).address +
              (DMXLD.Fixture.mk 1 5 4).channelCount - 1 ∧
            g.address ≤ c ∧ c ≤ g.address + g.channelCount - 1)
      ∧ ∀ r', DMXLD.rig_add [DMXLD.Fixture.mk 1 1 4]
          (DMXLD.Fixture.mk 1 5 4) = some r' →
            r' = [DMXLD.Fixture.mk 1 1 4] ++ [DMXLD.Fixture.mk 1 5 4]) :=
  ⟨by decide, by decide,
   c4_theorem [DMXLD.Fixture.mk 1 1 4] (DMXLD.Fixture.mk 1 5 4)
     (by decide) (by decide)⟩

/-- C5: the claim says `duration` is the maximum of the entry end times,
but the code starts its running maximum at `0.0`: a timeline whose only
entry starts at `-2` with a 1-second child has end time `-1`, yet the
code returns `0`. -/
theorem c5_counterexample :
    DMXLD.timeline_duration [(-2, some 1)] = some 0
    ∧ (-2 : ℚ) + 1 = -1 ∧ (0 : ℚ) ≠ -1 := by
  refine ⟨?_, by norm_num, by norm_num⟩
  show some (max 0 ((-2 : ℚ) + 1)) = some 0
  rw [max_eq_left (by norm_num : (-2 : ℚ) + 1 ≤ 0)]

/-- C5 (amended): `duration` is `0` for an empty timeline, `None` when
some child's duration is `None`, and otherwise the maximum of `0` and
the entry end times `start + duration` — a nonnegative upper bound of
all end times that is attained by some entry unless it is the floor
`0`. -/
theorem c5_theorem (events : List (ℚ × Option ℚ)) :
    (events = [] → DMXLD.timeline_duration events = some 0)
    ∧ ((∃ e ∈ events, e.2 = none) →
        DMXLD.timeline_duration events = none)
    ∧ ((∀ e ∈ events, e.2 ≠ none) →
        ∃ m, DMXLD.timeline_duration events = some m ∧ 0 ≤ m
          ∧ (∀ e ∈ events, ∀ d, e.2 = some d → e.1 + d ≤ m)
          ∧ (m = 0 ∨ ∃ e ∈ events, ∃ d, e.2 = some d ∧ m = e.1 + d)) := by
  refine ⟨?_, ?_, ?_⟩
  · intro h; subst h; rfl
  · intro h
    cases events with
    | nil => simp at h
    | cons e rest => exact DMXLD.durationFold_none (e :: rest) 0 h
  · intro h
    cases events with
    | nil => exact ⟨0, rfl, le_refl 0, by simp, Or.inl rfl⟩
    | cons e rest =>
        obtain ⟨m, hm, hacc, hub, hatt⟩ :=
          DMXLD.durationFold_finite (e :: rest) 0 h
        exact ⟨m, hm, hacc, hub, hatt⟩

/-- C5 witness: at entries `(2, 3s)` and `(0, 1s)` the duration is a
nonnegative attained upper bound (namely `5`). -/
theorem c5_witness :
    ∃ m, DMXLD.timeline_duration [((2 : ℚ), some (3 : ℚ)), (0, some 1)] =
        some m ∧ 0 ≤ m
      ∧ (∀ e ∈ [((2 : ℚ), some (3 : ℚ)), (0, some 1)],
          ∀ d, e.2 = some d → e.1 + d ≤ m)
      ∧ (m = 0 ∨ ∃ e ∈ [((2 : ℚ), some (3 : ℚ)), (0, some 1)],
          ∃ d, e.2 = some d ∧ m = e.1 + d) :=
  (c5_theorem [(2, some 3), (0, some 1)]).2.2 (by simp)

/-- C6: the resolution priority (`color_<s>`, then unified `color`,
then default) holds, but a Raw-wrapped value does NOT bypass `convert`:
`FixtureType.encode` passes it through `attr.convert` like a plain
tuple.  On a 2-segment RGBW color attribute with
`color_0 = Raw(1,1,1)` and `color_1 = (1,0,0)`, segment 0 is converted
to RGBW `(0,0,0,1)` and emitted as bytes `[0,0,0,255]`, not the raw
bytes `[255,255,255]` the Raw marker promises. -/
theorem c6_theorem :
    DMXLD.encode_segmented (DMXLD.rgbw_convert .balanced)
        (some "raw_rgbw") [0, 0, 0, 0] DMXLD.rgbw_encode 2 4 DMXLD.c6_state
      = some [(0, 0), (1, 0), (2, 0), (3, 255),
              (4, 255), (5, 0), (6, 0), (7, 0)]
    ∧ DMXLD.rgbw_convert .balanced [1, 1, 1] = [0, 0, 0, 1]
    ∧ DMXLD.rgbw_encode [1, 1, 1] = [255, 255, 255]
    ∧ ([((0:ℕ), (0:ℤ)), (1, 0), (2, 0), (3, 255)] ≠
        [((0:ℕ), (255:ℤ)), (1, 255), (2, 255)]) := by
  have hconv0 : DMXLD.rgbw_convert .balanced [1, 1, 1] = [0, 0, 0, 1] := by
    rw [DMXLD.rgbw_convert, if_neg (by norm_num)]
    norm_num [DMXLD.rgb_to_rgbw, List.getD]
  have hconv1 : DMXLD.rgbw_convert .balanced [1, 0, 0] = [1, 0, 0, 0] := by
    rw [DMXLD.rgbw_convert, if_neg (by norm_num)]
    norm_num [DMXLD.rgb_to_rgbw, List.getD]
  have hres0 : DMXLD.seg_resolve (DMXLD.rgbw_convert .balanced)
      (some "raw_rgbw") [0, 0, 0, 0] DMXLD.c6_state 0 =
        some [0, 0, 0, 1] := by
    show (DMXLD.valueAsTuple (.tup true [1, 1, 1])).map
        (fun p => DMXLD.rgbw_convert .balanced p.2) = some [0, 0, 0, 1]
    simp [DMXLD.valueAsTuple, hconv0]
  have hres1 : DMXLD.seg_resolve (DMXLD.rgbw_convert .balanced)
      (some "raw_rgbw") [0, 0, 0, 0] DMXLD.c6_state 1 =
        some [1, 0, 0, 0] := by
    show (DMXLD.valueAsTuple (.tup false [1, 0, 0])).map
        (fun p => DMXLD.rgbw_convert .balanced p.2) = some [1, 0, 0, 0]
    simp [DMXLD.valueAsTuple, hconv1]
  have hbytes0 : DMXLD.rgbw_encode [0, 0, 0, 1] = [0, 0, 0, 255] := by
    simp [DMXLD.rgbw_encode, DMXLD.to_dmx_zero, DMXLD.to_dmx_one]
  have hbytes1 : DMXLD.rgbw_encode [1, 0, 0, 0] = [255, 0, 0, 0] := by
    simp [DMXLD.rgbw_encode, DMXLD.to_dmx_zero, DMXLD.to_dmx_one]
  have hbytesRaw : DMXLD.rgbw_encode [1, 1, 1] = [255, 255, 255] := by
    simp [DMXLD.rgbw_encode, DMXLD.to_dmx_one]
  refine ⟨?_, hconv0, hbytesRaw, by decide⟩
  show DMXLD.encode_segments (DMXLD.rgbw_convert .balanced)
      (some "raw_rgbw") [0, 0, 0, 0] DMXLD.rgbw_encode 4 DMXLD.c6_state
      [0, 1] = _
  simp only [DMXLD.encode_segments, hres0, hres1, hbytes0, hbytes1]
  decide

/-- C7: `stop()` only clears `_running` and cancels the pending timer;
`_finish_playback` — the sole place the transport is stopped and
`_done_event` is set — runs only from the timer callback, which has
just been cancelled.  From the playing state, after `stop()` every
reachable state still has the transport up and the completion signal
unset, so `wait()` never returns (and the transport is never shut
down). -/
theorem c7_theorem :
    (DMXLD.engine_stop DMXLD.playingState).transportUp = true
    ∧ (DMXLD.engine_stop DMXLD.playingState).doneSet = false
    ∧ ∀ s, Relation.ReflTransGen DMXLD.EngineStep
        (DMXLD.engine_stop DMXLD.playingState) s →
        s.transportUp = true ∧ s.doneSet = false := by
  have key : ∀ s, Relation.ReflTransGen DMXLD.EngineStep
      (DMXLD.engine_stop DMXLD.playingState) s →
      s = DMXLD.engine_stop DMXLD.playingState := by
    intro s h
    induction h with
    | refl => rfl
    | tail h1 h2 ih =>
        subst ih
        cases h2 with
        | stop => rfl
        | fire expired hp => exact absurd hp (by decide)
  exact ⟨rfl, rfl, fun s h => by rw [key s h]; exact ⟨rfl, rfl⟩⟩

/-- C7 witness: immediately after `stop()` from the playing state the
transport is still up and the completion signal unset. -/
theorem c7_witness :
    (DMXLD.engine_stop DMXLD.playingState).transportUp = true
    ∧ (DMXLD.engine_stop DMXLD.playingState).doneSet = false :=
  c7_theorem.2.2 (DMXLD.engine_stop DMXLD.playingState)
    Relation.ReflTransGen.refl

/-- C9: `Rainbow.render_params` takes no segment argument and its hue
is `(t·speed + 0.1·i) mod 1` — there is no `0.05·seg` term — and it
writes keys `"dimmer"` and `"rgb"` (no `"color"` key at all).  At
`t = 0, i = 0` the code's hue is `0` whereas the claim's formula gives
`0.05` at segment 1.  (Moreover `EffectClip.render` calls
`params(t, fixture, idx, seg)` with four arguments, so the three-
parameter `render_params` raises `TypeError` when used through an
`EffectClip`.) -/
theorem c9_theorem :
    DMXLD.rainbow_render_params 1 1 0 0 "color" = none
    ∧ DMXLD.rainbow_render_params 1 1 0 0 "dimmer" = some (.scalar 1)
    ∧ DMXLD.rainbow_render_params 1 1 0 0 "rgb" =
        some (.tup false [1, 0, 0])
    ∧ Int.fract ((0:ℚ) * 1 + (0:ℚ) * (1/10)) = 0
    ∧ Int.fract ((0:ℚ) * 1 + (0:ℚ) * (1/10) + 1 * (1/20)) = 1/20
    ∧ ((0:ℚ) ≠ 1/20) := by
  have hhue : Int.fract ((0:ℚ) * 1 + (0:ℚ) * (1/10)) = 0 := by
    norm_num
  have hhsv : DMXLD.hsv_to_rgb 0 1 1 = (1, 0, 0) := by
    rw [DMXLD.hsv_to_rgb]
    norm_num [DMXLD.truncQ]
  have hrgb : DMXLD.rainbow_render_params 1 1 0 0 "rgb" =
      some (.tup false
        [(DMXLD.hsv_to_rgb (Int.fract ((0:ℚ) * 1 + (0:ℚ) * (1/10))) 1 1).1,
         (DMXLD.hsv_to_rgb (Int.fract ((0:ℚ) * 1 + (0:ℚ) * (1/10))) 1 1).2.1,
         (DMXLD.hsv_to_rgb (Int.fract ((0:ℚ) * 1 + (0:ℚ) * (1/10))) 1 1).2.2]) :=
    rfl
  refine ⟨rfl, rfl, ?_, hhue, ?_, by norm_num⟩
  · rw [hrgb, hhue, hhsv]
  · rw [show (0:ℚ) * 1 + (0:ℚ) * (1/10) + 1 * (1/20) = 1/20 by norm_num]
    rw [Int.fract_eq_self.mpr (by norm_num)]
